import Mathlib

/-!
Shallow embedding of the deep-research-agent repository:
`vector_utils.py` (text preprocessing, chunking, knowledge-base ingest/query),
`deep_research_agent.py` (the four pipeline nodes and their composition),
`serper_groq_agent.py` (`search_web`).

Text is modelled as `List Char`; Python string primitives (`strip`, slicing,
`rfind`) are embedded with Python's semantics, including negative-index
normalisation, since the chunking loop can in fact drive its `start` index
negative.  The chunking `while` loop is embedded with explicit fuel because it
does not terminate on all inputs; `none` means the fuel ran out, and theorems
below show both that the production configuration always terminates and that
certain configurations never do.
-/

/-- Python `str.isspace` character class as used by `str.strip()` / regex `\s`
(ASCII fragment). -/
def pyWhitespace (c : Char) : Bool :=
  c == ' ' || c == '\t' || c == '\n' || c == '\r' || c == '\x0b' || c == '\x0c'

/-- Python `s.strip()` on a character list: drop whitespace from both ends. -/
def pyStrip (l : List Char) : List Char :=
  ((l.dropWhile pyWhitespace).reverse.dropWhile pyWhitespace).reverse

/-- Normalise a Python slice index: negative indices count from the end,
then the result is clamped to `[0, n]`. -/
def pyNorm (n : Nat) (i : Int) : Nat :=
  if i < 0 then (n + i).toNat else min i.toNat n

/-- Python slice `l[a:b]` with full index normalisation. -/
def pySlice (l : List Char) (a b : Int) : List Char :=
  (l.take (pyNorm l.length b)).drop (pyNorm l.length a)

/-- Python `l.rfind(c, a, b)`: the largest index `i` in `[a, b)` (after index
normalisation) with `l[i] = c`, or `-1` when there is none. -/
def pyRfind (l : List Char) (c : Char) (a b : Int) : Int :=
  let lo := pyNorm l.length a
  let hi := pyNorm l.length b
  match ((List.range l.length).filter
      (fun i => decide (lo ≤ i) && decide (i < hi) && (l.getD i ' ' == c))).getLast? with
  | some i => Int.ofNat i
  | none => -1

/-- The cut point chosen by one iteration of `split_text_into_chunks`' loop:
`end = start + chunk_size`, moved back to just after the rightmost `'.'` or
`'\n'` in the window whenever that boundary lies past
`start + chunk_size - 200`. -/
def adjustedEnd (text : List Char) (chunk_size : Nat) (start : Int) : Int :=
  let e0 := start + (chunk_size : Int)
  if e0 < (text.length : Int) then
    let last_period := pyRfind text '.' start e0
    let last_newline := pyRfind text '\n' start e0
    let boundary := max last_period last_newline
    if boundary > start + (chunk_size : Int) - 200 then boundary + 1 else e0
  else e0

/-- The `while start < len(text)` loop of `split_text_into_chunks`, with fuel.
Besides the chunks it also records the successive values of the loop variable
`start` (the window starts), which §4.1 of the spec makes claims about.
`none` = the fuel ran out with the loop still running. -/
def splitLoop (text : List Char) (chunk_size overlap : Nat) :
    Nat → Int → List (List Char) → List Int → Option (List (List Char) × List Int)
  | 0, start, chunks, starts =>
    if start < (text.length : Int) then none else some (chunks, starts)
  | fuel + 1, start, chunks, starts =>
    if start < (text.length : Int) then
      let e := adjustedEnd text chunk_size start
      let chunk := pyStrip (pySlice text start e)
      let chunks' := if chunk.isEmpty then chunks else chunks.concat chunk
      splitLoop text chunk_size overlap fuel (e - (overlap : Int)) chunks' (starts.concat start)
    else some (chunks, starts)

/-- `split_text_into_chunks(text, chunk_size, overlap)` (vector_utils.py):
texts no longer than `chunk_size` are returned whole; otherwise the fuelled
loop runs from `start = 0`. -/
def split_text_into_chunks (text : List Char) (chunk_size overlap fuel : Nat) :
    Option (List (List Char)) :=
  if text.length ≤ chunk_size then some [text]
  else (splitLoop text chunk_size overlap fuel 0 [] []).map Prod.fst

/-- The sequence of window starts taken by `split_text_into_chunks`' loop
(empty when the whole text fits in one chunk). -/
def split_window_starts (text : List Char) (chunk_size overlap fuel : Nat) :
    Option (List Int) :=
  if text.length ≤ chunk_size then some []
  else (splitLoop text chunk_size overlap fuel 0 [] []).map Prod.snd

/-- Regex `\w` (ASCII fragment): letters, digits, underscore. -/
def isWordChar (c : Char) : Bool := c.isAlphanum || c == '_'

/-- The conservative character allow-list of `preprocess_text`:
`[\w\s\.\,\!\?\;\:\-\(\)]`; everything else is replaced by a space. -/
def allowedChar (c : Char) : Bool :=
  isWordChar c || pyWhitespace c ||
    ['.', ',', '!', '?', ';', ':', '-', '(', ')'].contains c

/-- Worker for `collapseWs`: the flag records whether the previous character
was whitespace (in which case further whitespace is absorbed into the single
space already emitted). -/
def collapseWsAux : Bool → List Char → List Char
  | _, [] => []
  | prevWs, c :: rest =>
    if pyWhitespace c then
      if prevWs then collapseWsAux true rest
      else ' ' :: collapseWsAux true rest
    else c :: collapseWsAux false rest

/-- `re.sub(r'\s+', ' ', text)`: each maximal run of whitespace becomes one
space. -/
def collapseWs (l : List Char) : List Char := collapseWsAux false l

/-- Python `text.split('\n')` (keeps empty pieces; a text with no newline is a
single one-element split). -/
def splitOnNl : List Char → List (List Char)
  | [] => [[]]
  | c :: rest =>
    match splitOnNl rest with
    | [] => [[c]]
    | h :: t => if c == '\n' then [] :: h :: t else (c :: h) :: t

/-- `preprocess_text` (vector_utils.py): collapse whitespace, replace
characters outside the allow-list with spaces, drop lines whose stripped
length is at most 10 (keeping the stripped lines), join with newlines, strip. -/
def preprocess_text (text : List Char) : List Char :=
  let t1 := collapseWs text
  let t2 := t1.map (fun c => if allowedChar c then c else ' ')
  let lines := splitOnNl t2
  let cleaned_lines := (lines.filter (fun line => 10 < (pyStrip line).length)).map pyStrip
  pyStrip (List.intercalate ['\n'] cleaned_lines)

/-- The id-generating `for` loop of `add_document_to_collection`: each
iteration draws one fresh uuid for the chunk id (`str(uuid.uuid4())`) and a
second fresh uuid for the `added_timestamp` metadata field, so chunk `i`
receives the `2 i`-th uuid of the stream `gen`. -/
def addChunksLoop (gen : Nat → String) : List (List Char) → Nat → List String
  | [], _ => []
  | _chunk :: rest, ctr =>
    let doc_id := gen ctr
    doc_id :: addChunksLoop gen rest (ctr + 2)

/-- `add_document_to_collection(document_text, source, collection)`
(vector_utils.py).  The uuid stream is a parameter `gen`; persistence into the
chromadb collection is an external effect, so the embedding returns the list
of generated chunk ids — `none` models the Python `return None` taken when the
preprocessed text has fewer than 50 characters.  The chunking loop is run with
fuel equal to the text length, which the termination lemma below shows is
always enough for the production configuration `chunk_size=1000, overlap=100`. -/
def add_document_to_collection (gen : Nat → String) (document_text : List Char) :
    Option (List String) :=
  let processed_text := preprocess_text document_text
  if (pyStrip processed_text).length < 50 then none
  else
    match split_text_into_chunks processed_text 1000 100 processed_text.length with
    | some chunks => some (addChunksLoop gen chunks 0)
    | none => none

/-! ## Knowledge-base query (vector_utils.py) -/

/-- The chromadb collection as seen by `query_knowledge_base`: its document
count and its similarity-query collaborator (the `documents` list extracted
from `collection.query`; `Except.error` models a raised exception). -/
structure Collection where
  count : Nat
  queryFn : String → Nat → Except String (List String)

/-- `query_knowledge_base(query, collection, n_results)` (vector_utils.py):
an empty store short-circuits to `[]`; a query exception is caught and also
yields `[]`. -/
def query_knowledge_base (q : String) (collection : Collection) (n_results : Nat) :
    List String :=
  if collection.count = 0 then []
  else
    match collection.queryFn q n_results with
    | .ok documents => documents
    | .error _ => []

/-! ## Pipeline data model (deep_research_agent.py)

The Python `ResearchState` is a `TypedDict` whose keys may be absent; every
read in the source goes through `.get(key, default)` with `[]`/`None`
defaults, so the embedding totalises the record with those defaults
(`initialState` below is the `{"query": query}` passed to
`research_app.invoke` in streamlit_app.py). -/

structure SearchHit where
  title : String
  link : String
  snippet : String
  position : Nat
deriving DecidableEq

structure ScrapedPage where
  url : String
  content : String
deriving DecidableEq

structure Finding where
  title : String
  description : String
  evidence : List String
deriving DecidableEq

/-- A parsed JSON value, the result type of the `json.loads` collaborator used
by `synthesis_node`. -/
inductive Json where
  | null
  | bool (b : Bool)
  | num (n : Int)
  | str (s : String)
  | arr (elems : List Json)
  | obj (fields : List (String × Json))

/-- The possible shapes of the `final_synthesis` dict assigned by
`synthesis_node`: absent, an `{"error": msg}` dict, a
`{"summary":…, "findings":…}` dict, or the raw `json.loads` result stored
verbatim on parse success. -/
inductive Synthesis where
  | empty
  | errorOnly (msg : String)
  | structured (summary : String) (findings : List Finding)
  | parsedJson (j : Json)

structure ResearchState where
  query : String
  search_results : List SearchHit
  scraped_content : List ScrapedPage
  knowledge_base_results : List String
  final_synthesis : Synthesis
  error : Option String

/-- The `inputs = {"query": query}` initial state of a run, with the
`.get` defaults for every other key. -/
def initialState (query : String) : ResearchState :=
  { query := query
    search_results := []
    scraped_content := []
    knowledge_base_results := []
    final_synthesis := .empty
    error := none }

/-! ## Pipeline nodes -/

/-- `search_node` (deep_research_agent.py).  `searchFn` is the
`search_web` collaborator; `Except.error` models a raised exception
(caught by the node, which then records the failure). -/
def search_node (searchFn : String → Except String (List SearchHit))
    (state : ResearchState) : ResearchState :=
  if state.error.isSome then state
  else if state.query = "" then
    { state with error := some "No query provided for search" }
  else
    match searchFn state.query with
    | .ok results => { state with search_results := results }
    | .error e =>
      { state with error := some ("Web search failed: " ++ e), search_results := [] }

/-- `knowledge_base_node` (deep_research_agent.py).  `kb` is the result of
`get_knowledge_base()` (`none` = collection unavailable).  Failures inside
`query_knowledge_base` are already absorbed to `[]`; the node never sets
`error`. -/
def knowledge_base_node (kb : Option Collection) (state : ResearchState) :
    ResearchState :=
  if state.error.isSome then state
  else
    match kb with
    | none => { state with knowledge_base_results := [] }
    | some research_collection =>
      if state.query = "" then { state with knowledge_base_results := [] }
      else
        { state with knowledge_base_results :=
            query_knowledge_base state.query research_collection 3 }

/-- Python `s.startswith(pre)` on `String`s. -/
def pyStartsWith (s pre : String) : Bool := pre.data.isPrefixOf s.data

/-- The url-collecting loop of `scrape_node`: keep links that are non-empty,
not yet collected, and carry an `http://`/`https://` scheme, preserving
first-seen order. -/
def collectUrls : List SearchHit → List String → List String
  | [], urls => urls
  | result :: rest, urls =>
    if result.link ≠ "" ∧ result.link ∉ urls ∧
        (pyStartsWith result.link "http://" || pyStartsWith result.link "https://") then
      collectUrls rest (urls.concat result.link)
    else collectUrls rest urls

/-- Python `s.strip()` on a `String`. -/
def pyStripStr (s : String) : String := ⟨pyStrip s.data⟩

/-- Python `s[:n]` on a `String`: the first `n` characters. -/
def pyTakeStr (s : String) (n : Nat) : String := ⟨s.data.take n⟩

/-- The per-url loop of `scrape_node`: a raised exception is skipped; content
must be truthy and have stripped length above 50; accepted content is
truncated to its first 2000 characters (`content[:2000]`). -/
def scrapePages (scrapeFn : String → Except String String) :
    List String → List ScrapedPage
  | [] => []
  | url :: rest =>
    match scrapeFn url with
    | .error _ => scrapePages scrapeFn rest
    | .ok content =>
      if content ≠ "" ∧ 50 < (pyStripStr content).length then
        { url := url, content := pyTakeStr content 2000 } :: scrapePages scrapeFn rest
      else scrapePages scrapeFn rest

/-- `scrape_node` (deep_research_agent.py): skip on previous error; with no
search results store `[]`; otherwise scrape the first 3 collected urls. -/
def scrape_node (scrapeFn : String → Except String String)
    (state : ResearchState) : ResearchState :=
  if state.error.isSome then state
  else if state.search_results.isEmpty then { state with scraped_content := [] }
  else
    { state with scraped_content :=
        scrapePages scrapeFn ((collectUrls state.search_results []).take 3) }

/-- The fallback `summary` string built by `synthesis_node` when JSON parsing
of the model output fails. -/
def fallbackSummary (query : String) (nSearch nScraped nKb : Nat) : String :=
  "Research analysis completed for: " ++ query ++ ". Data was gathered from " ++
    toString nSearch ++ " web sources, " ++ toString nScraped ++
    " scraped pages, and " ++ toString nKb ++ " knowledge base entries."

/-- The fallback findings built by `synthesis_node` on JSON parse failure:
at most one synthetic finding per non-empty source category, in the order
knowledge base, web search, scraped content. -/
def fallbackFindings (search_results : List SearchHit)
    (scraped_content : List ScrapedPage) (kb_results : List String) : List Finding :=
  (if kb_results.isEmpty then [] else
    [{ title := "Knowledge Base Analysis"
       description := "Relevant information found in the internal knowledge base."
       evidence := ["Knowledge Base"] }]) ++
  (if search_results.isEmpty then [] else
    [{ title := "Web Research Results"
       description := "Found " ++ toString search_results.length ++
         " relevant web sources with current information."
       evidence := (search_results.take 3).map (fun r => r.link) }]) ++
  (if scraped_content.isEmpty then [] else
    [{ title := "Detailed Content Analysis"
       description := "Successfully extracted detailed content from " ++
         toString scraped_content.length ++ " web sources."
       evidence := scraped_content.map (fun c => c.url) }])

/-- `synthesis_node` (deep_research_agent.py).  `llmResult` is the combined
`get_llm()` / `llm.invoke` collaborator: `none` = LLM unavailable,
`some (.error e)` = the invocation raised, `some (.ok content)` = the model's
response text.  `jsonParse` is the `json.loads` collaborator applied to the
(fence-cleaned) response; `none` models a `json.JSONDecodeError`.  On parse
success the raw parsed value is stored verbatim. -/
def synthesis_node (llmResult : Option (Except String String))
    (jsonParse : String → Option Json) (state : ResearchState) : ResearchState :=
  if state.search_results.isEmpty && state.scraped_content.isEmpty &&
      state.knowledge_base_results.isEmpty then
    { state with error := some "No data available for synthesis"
                 final_synthesis := .errorOnly "No data available for synthesis" }
  else
    match llmResult with
    | none =>
      { state with error := some "LLM not available for synthesis"
                   final_synthesis := .errorOnly "LLM not available for synthesis" }
    | some (.error e) =>
      { state with error := some ("Synthesis failed: " ++ e)
                   final_synthesis := .structured
                     ("Research synthesis encountered an error: Synthesis failed: " ++ e) [] }
    | some (.ok content) =>
      match jsonParse content with
      | some synthesis_result => { state with final_synthesis := .parsedJson synthesis_result }
      | none =>
        let fallback_result :=
          Synthesis.structured
            (fallbackSummary state.query state.search_results.length
              state.scraped_content.length state.knowledge_base_results.length)
            (fallbackFindings state.search_results state.scraped_content
              state.knowledge_base_results)
        { state with final_synthesis := fallback_result }

/-- The compiled workflow of `create_research_workflow`:
START → search → query_kb → scrape → synthesis → END. -/
def run_research_workflow (searchFn : String → Except String (List SearchHit))
    (kb : Option Collection) (scrapeFn : String → Except String String)
    (llmResult : Option (Except String String)) (jsonParse : String → Option Json)
    (query : String) : ResearchState :=
  synthesis_node llmResult jsonParse
    (scrape_node scrapeFn
      (knowledge_base_node kb
        (search_node searchFn (initialState query))))

/-! ## `search_web` (serper_groq_agent.py) -/

/-- The outcome of the `requests.post` call to the Serper API, one constructor
per `except` arm of `search_web` plus the success case carrying the parsed
`organic` results (each already reshaped by the `.get(…, default)` accesses). -/
inductive RequestOutcome where
  | timeout
  | httpError (msg : String)
  | requestError (msg : String)
  | keyError (msg : String)
  | otherError (msg : String)
  | ok (organic : List SearchHit)

/-- Every non-`ok` outcome. -/
def RequestOutcome.isFailure : RequestOutcome → Bool
  | .ok _ => false
  | _ => true

/-- `search_web(query, num_results)` (serper_groq_agent.py): missing API key
returns `[]`; every exception arm returns `[]`; on success the first
`num_results` organic results are returned. -/
def search_web (serper_api_key : Option String) (outcome : RequestOutcome)
    (_query : String) (num_results : Nat) : List SearchHit :=
  match serper_api_key with
  | none => []
  | some _ =>
    match outcome with
    | .ok organic => organic.take num_results
    | _ => []

/-! ## Spec-side definitions and accessors -/

/-- First field of a JSON object with the given key. -/
def Json.lookup (fields : List (String × Json)) (k : String) : Option Json :=
  (fields.find? (fun p => p.1 == k)).map (fun p => p.2)

def Json.asString : Json → Option String
  | .str s => some s
  | _ => none

/-- Modelled from the spec: a `Finding` record parsed from JSON —
`{"title": str, "description": str, "evidence": [str, …]}` (spec §3,
`Finding`: title, description, evidence). -/
def findingOfJson : Json → Option Finding
  | .obj fields =>
    match (Json.lookup fields "title").bind Json.asString,
        (Json.lookup fields "description").bind Json.asString,
        Json.lookup fields "evidence" with
    | some t, some d, some (.arr ev) =>
      (ev.mapM Json.asString).map (fun evs => { title := t, description := d, evidence := evs })
    | _, _, _ => none
  | _ => none

/-- Modelled from the spec: "the result is parsed as the `Report` structure"
(spec §3/§4.3) — a JSON value is Report-shaped when it is an object with a
string `summary` and a `findings` array of Finding-shaped objects.  The source
never performs this check (it stores whatever `json.loads` returns), which is
exactly what the refinement claims below compare. -/
def reportOfJson : Json → Option (String × List Finding)
  | .obj fields =>
    match (Json.lookup fields "summary").bind Json.asString,
        Json.lookup fields "findings" with
    | some s, some (.arr l) => (l.mapM findingOfJson).map (fun fs => (s, fs))
    | _, _ => none
  | _ => none

/-- The findings of a `final_synthesis` value, when it is a
summary/findings record. -/
def Synthesis.findingsOf : Synthesis → Option (List Finding)
  | .structured _ findings => some findings
  | _ => none

/-- Whether a `final_synthesis` value is a `Report` record (a
summary/findings dict, directly or as a Report-shaped parsed JSON value), as
opposed to absent or error-only. -/
def Synthesis.isReportRecord : Synthesis → Bool
  | .structured _ _ => true
  | .parsedJson j => (reportOfJson j).isSome
  | _ => false

/-- Closed form of the chunking loop in the clean case (no boundary
adjustment, no stripping, no skipped chunks): successive windows
`text[s : s+chunk_size]` with the start advancing by
`chunk_size − overlap` each time. -/
def cleanChunks (text : List Char) (chunk_size overlap : Nat) (s : Nat) :
    List (List Char) :=
  if _h : s < text.length ∧ overlap < chunk_size then
    (text.drop s).take chunk_size ::
      cleanChunks text chunk_size overlap (s + (chunk_size - overlap))
  else []
termination_by text.length - s
decreasing_by omega

/-- The window starts matching `cleanChunks`. -/
def cleanStarts (n chunk_size overlap : Nat) (s : Nat) : List Nat :=
  if _h : s < n ∧ overlap < chunk_size then
    s :: cleanStarts n chunk_size overlap (s + (chunk_size - overlap))
  else []
termination_by n - s
decreasing_by omega

/-- Reassemble chunked text as the spec's coverage property prescribes: keep
the first chunk whole and drop the overlapping `overlap`-character prefix of
every later chunk. -/
def reconstruct (overlap : Nat) : List (List Char) → List Char
  | [] => []
  | c :: rest => c ++ (rest.map (List.drop overlap)).flatten

/-! ## Concrete inputs used by counterexamples and witnesses -/

/-- A search collaborator that raises. -/
def raisingSearchFn : String → Except String (List SearchHit) := fun _ => .error "boom"

/-- A knowledge base holding two chunks whose query returns both. -/
def twoHitKb : Option Collection :=
  some ⟨2, fun _ _ => .ok ["fact one", "fact two"]⟩

/-- A pipeline state whose only non-empty source category is the knowledge
base (two hits). -/
def kbOnlyState : ResearchState :=
  { initialState "q" with knowledge_base_results := ["hit one", "hit two"] }

/-- The JSON value `[1, 2, 3]`: parseable as JSON but not as the `Report`
structure. -/
def arrJson : Json := Json.arr [Json.num 1, Json.num 2, Json.num 3]

/-- A `json.loads` collaborator consistent with Python on the reply
`"[1, 2, 3]"`. -/
def arrJsonParse : String → Option Json :=
  fun s => if s = "[1, 2, 3]" then some arrJson else none

/-- An injective uuid stream used by witnesses: the `n`-th id is `n`
repetitions of `'x'`. -/
def replicateGen : Nat → String := fun n => String.mk (List.replicate n 'x')

/-- 2100 characters of scraped content: over the 2000-character cap. -/
def bigContent : String := String.mk (List.replicate 2100 'x')

/-- A pipeline state with no prior error and a single scrapeable search
hit. -/
def oneHitState : ResearchState :=
  { initialState "q" with search_results := [SearchHit.mk "t" "http://x" "s" 0] }

/-- 400 characters with no sentence boundary: with `overlap = chunk_size =
300` the chunking loop revisits `start = 0` forever. -/
def divergeText : List Char := List.replicate 400 'a'

/-- 300 characters with a `'.'` at index 240: chunking with
`chunk_size = 250` adjusts the first cut to 241, so the second window start
is `241 − overlap`, not `chunk_size − overlap`. -/
def cex2Text : List Char := List.replicate 240 'a' ++ '.' :: List.replicate 59 'b'

/-- 400 characters with 10 spaces spanning the chunk boundary: per-chunk
stripping deletes them, so overlap-aware concatenation cannot rebuild the
text. -/
def cex6Text : List Char :=
  List.replicate 290 'a' ++ List.replicate 10 ' ' ++ List.replicate 100 'b'

set_option maxRecDepth 10000

/-! ## Theorems -/

/-- `dropWhile` is the identity when no element satisfies the predicate. -/
theorem dropWhile_eq_self_of_forall (p : Char → Bool) (l : List Char)
    (h : ∀ c ∈ l, p c = false) : l.dropWhile p = l := by
  cases l with
  | nil => rfl
  | cons c t =>
    rw [List.dropWhile_cons, h c (List.mem_cons_self c t)]
    simp

/-- Stripping is the identity on whitespace-free text. -/
theorem pyStrip_eq_self (l : List Char) (h : ∀ c ∈ l, pyWhitespace c = false) :
    pyStrip l = l := by
  unfold pyStrip
  rw [dropWhile_eq_self_of_forall _ _ h]
  rw [dropWhile_eq_self_of_forall _ _ (fun c hc => h c (List.mem_reverse.mp hc))]
  exact List.reverse_reverse l

/-- C8: for every query text and every k, if the knowledge store holds zero
chunks then `query_knowledge_base` returns the empty sequence and does not
signal an error. -/
theorem query_kb_empty_store_returns_nil (q : String) (collection : Collection)
    (n_results : Nat) (h : collection.count = 0) :
    query_knowledge_base q collection n_results = [] := by
  simp [query_knowledge_base, h]

/-- Witness for C8 at a concrete empty collection. -/
theorem query_kb_empty_store_returns_nil_witness :
    (Collection.mk 0 (fun _ _ => Except.ok ["doc"])).count = 0 ∧
      query_knowledge_base "ai" (Collection.mk 0 (fun _ _ => Except.ok ["doc"])) 2 = [] :=
  ⟨rfl, query_kb_empty_store_returns_nil "ai" (Collection.mk 0 (fun _ _ => Except.ok ["doc"])) 2 rfl⟩

/-- Every page emitted by the per-url scraping loop has content truncated to
at most 2000 characters. -/
theorem scrapePages_content_le (scrapeFn : String → Except String String) :
    ∀ urls, ∀ p ∈ scrapePages scrapeFn urls, p.content.length ≤ 2000 := by
  intro urls
  induction urls with
  | nil => intro p hp; simp [scrapePages] at hp
  | cons url rest ih =>
    intro p hp
    unfold scrapePages at hp
    cases hfn : scrapeFn url with
    | error e => rw [hfn] at hp; exact ih p hp
    | ok content =>
      rw [hfn] at hp
      dsimp only at hp
      by_cases hc : content ≠ "" ∧ 50 < (pyStripStr content).length
      · rw [if_pos hc, List.mem_cons] at hp
        rcases hp with hp | hp
        · subst hp
          show (pyTakeStr content 2000).length ≤ 2000
          have h2 : (pyTakeStr content 2000).length = (content.data.take 2000).length := rfl
          rw [h2, List.length_take]
          exact Nat.min_le_left _ _
        · exact ih p hp
      · rw [if_neg hc] at hp; exact ih p hp

/-- A scraped url whose content passes the acceptance filter is always
stored — however long its content — as the page with that content cut to its
first 2000 characters. -/
theorem scrapePages_mem_of_accepted (scrapeFn : String → Except String String)
    (url content : String) (hfn : scrapeFn url = .ok content)
    (hc1 : content ≠ "") (hc2 : 50 < (pyStripStr content).length) :
    ∀ urls : List String, url ∈ urls →
      (ScrapedPage.mk url (pyTakeStr content 2000)) ∈ scrapePages scrapeFn urls := by
  intro urls
  induction urls with
  | nil => intro h; simp at h
  | cons u rest ih =>
    intro hmem
    rw [List.mem_cons] at hmem
    unfold scrapePages
    rcases hmem with heq | hmem
    · subst heq
      rw [hfn]
      dsimp only
      rw [if_pos ⟨hc1, hc2⟩]
      exact List.mem_cons_self _ _
    · cases hu : scrapeFn u with
      | error e =>
        dsimp only
        exact ih hmem
      | ok c =>
        dsimp only
        by_cases hcond : c ≠ "" ∧ 50 < (pyStripStr c).length
        · rw [if_pos hcond]
          exact List.mem_cons_of_mem _ (ih hmem)
        · rw [if_neg hcond]
          exact ih hmem

/-- C9: every scraped page stored by the Scrape stage has content of length
at most 2000 characters, and over-cap content is truncated to its first 2000
characters before storing, never rejected for being too long: (1) any page in
the stage's output is either carried over from the input state or has content
of at most 2000 characters; (2) any url among the (at most 3) scraped urls
whose content passes the acceptance filter — no matter how long that content
is — is stored as a page whose content is `content[:2000]`. -/
theorem scrape_node_content_bounded (scrapeFn : String → Except String String)
    (state : ResearchState) :
    (∀ p ∈ (scrape_node scrapeFn state).scraped_content,
      p ∈ state.scraped_content ∨ p.content.length ≤ 2000) ∧
    (state.error = none → state.search_results.isEmpty = false →
      ∀ url ∈ (collectUrls state.search_results []).take 3,
        ∀ content : String, scrapeFn url = .ok content → content ≠ "" →
          50 < (pyStripStr content).length →
          (ScrapedPage.mk url (pyTakeStr content 2000)) ∈
            (scrape_node scrapeFn state).scraped_content) := by
  constructor
  · intro p hp
    unfold scrape_node at hp
    by_cases h1 : state.error.isSome
    · rw [if_pos h1] at hp; exact Or.inl hp
    · rw [if_neg h1] at hp
      by_cases h2 : state.search_results.isEmpty
      · rw [if_pos h2] at hp; simp at hp
      · rw [if_neg h2] at hp
        exact Or.inr (scrapePages_content_le scrapeFn _ p hp)
  · intro herr hne url hurl content hfn hc1 hc2
    unfold scrape_node
    rw [if_neg (by rw [herr]; exact Bool.false_ne_true)]
    rw [if_neg (by rw [hne]; exact Bool.false_ne_true)]
    exact scrapePages_mem_of_accepted scrapeFn url content hfn hc1 hc2 _ hurl

/-- Witness for C9 at 2100-character scraped content: the over-cap page is
stored (not rejected), its stored content is the 2000-character truncation,
and the bound holds for it. -/
theorem scrape_node_content_bounded_witness :
    2000 < bigContent.length ∧
    (ScrapedPage.mk "http://x" (pyTakeStr bigContent 2000)) ∈
      (scrape_node (fun _ => Except.ok bigContent) oneHitState).scraped_content ∧
    ((ScrapedPage.mk "http://x" (pyTakeStr bigContent 2000)) ∈
        oneHitState.scraped_content ∨
      (ScrapedPage.mk "http://x" (pyTakeStr bigContent 2000)).content.length ≤ 2000) ∧
    (pyTakeStr bigContent 2000).length = 2000 := by
  have hdata : bigContent.data = List.replicate 2100 'x' := rfl
  have hlen : bigContent.length = 2100 := by
    show bigContent.data.length = 2100
    rw [hdata, List.length_replicate]
  have hstrip : 50 < (pyStripStr bigContent).length := by
    show 50 < (pyStrip bigContent.data).length
    rw [hdata,
      pyStrip_eq_self _ (fun c hc => by rw [List.eq_of_mem_replicate hc]; rfl),
      List.length_replicate]
    norm_num
  have hne : bigContent ≠ "" := by
    intro h
    have h2 := congrArg String.data h
    rw [hdata] at h2
    exact absurd (congrArg List.length h2) (by simp)
  have hmem := (scrape_node_content_bounded (fun _ => Except.ok bigContent)
      oneHitState).2 rfl rfl "http://x" (by decide) bigContent rfl hne hstrip
  refine ⟨by omega, hmem, ?_, ?_⟩
  · exact (scrape_node_content_bounded (fun _ => Except.ok bigContent)
      oneHitState).1 _ hmem
  · show (bigContent.data.take 2000).length = 2000
    rw [List.length_take, hdata, List.length_replicate]
    omega

/-- C10: `search_web` is total at its public interface — a missing API key or
any failing request outcome (timeout, HTTP error, request error, malformed
response, any other exception) yields the empty list rather than an
exception. -/
theorem search_web_failure_returns_nil (serper_api_key : Option String)
    (outcome : RequestOutcome) (query : String) (num_results : Nat)
    (h : serper_api_key = none ∨ outcome.isFailure = true) :
    search_web serper_api_key outcome query num_results = [] := by
  cases serper_api_key with
  | none => rfl
  | some key =>
    rcases h with h | h
    · exact absurd h (by simp)
    · cases outcome <;> simp_all [search_web, RequestOutcome.isFailure]

/-- Witness for C10 at a concrete timed-out request. -/
theorem search_web_failure_returns_nil_witness :
    ((some "key" : Option String) = none ∨ RequestOutcome.timeout.isFailure = true) ∧
      search_web (some "key") RequestOutcome.timeout "ai news" 5 = [] :=
  ⟨Or.inr rfl, search_web_failure_returns_nil (some "key") RequestOutcome.timeout "ai news" 5 (Or.inr rfl)⟩

/-- C4 (counterexample): with all three source categories empty, the
Synthesize stage stores the error-only value `{"error": …}` — not a Report
record with empty findings. -/
theorem synthesis_empty_data_counterexample :
    (synthesis_node (some (Except.ok "model text")) (fun _ => none)
        (initialState "q")).final_synthesis =
      Synthesis.errorOnly "No data available for synthesis" ∧
    Synthesis.isReportRecord ((synthesis_node (some (Except.ok "model text"))
        (fun _ => none) (initialState "q")).final_synthesis) = false :=
  ⟨rfl, rfl⟩

/-- C4 (amended): for every pipeline state in which searchResults,
knowledgeHits and scrapedPages are all empty, the Synthesize stage sets the
failure field and sets `final_synthesis` to the error-only value
`{"error": "No data available for synthesis"}` (no summary/findings Report
record is produced in this branch). -/
theorem synthesis_empty_data_sets_error (llmResult : Option (Except String String))
    (jsonParse : String → Option Json) (state : ResearchState)
    (h1 : state.search_results = []) (h2 : state.scraped_content = [])
    (h3 : state.knowledge_base_results = []) :
    (synthesis_node llmResult jsonParse state).error =
        some "No data available for synthesis" ∧
      (synthesis_node llmResult jsonParse state).final_synthesis =
        Synthesis.errorOnly "No data available for synthesis" := by
  unfold synthesis_node
  rw [h1, h2, h3]
  exact ⟨rfl, rfl⟩

/-- Witness for C4's amended theorem at a concrete empty-data state. -/
theorem synthesis_empty_data_sets_error_witness :
    (initialState "q").search_results = [] ∧ (initialState "q").scraped_content = [] ∧
    (initialState "q").knowledge_base_results = [] ∧
    ((synthesis_node none (fun _ => none) (initialState "q")).error =
        some "No data available for synthesis" ∧
      (synthesis_node none (fun _ => none) (initialState "q")).final_synthesis =
        Synthesis.errorOnly "No data available for synthesis") :=
  ⟨rfl, rfl, rfl, synthesis_empty_data_sets_error none (fun _ => none) (initialState "q") rfl rfl rfl⟩

/-- C7 (counterexample): a model reply that is valid JSON but not the Report
structure — `[1, 2, 3]` — bypasses the fallback entirely: with the knowledge
base as the only non-empty category, the code stores the raw parsed JSON
array verbatim, so no fallback Finding with evidence `["Knowledge Base"]` is
built even though the reply is not parseable as the Report structure. -/
theorem synthesis_fallback_counterexample :
    reportOfJson arrJson = none ∧
    (synthesis_node (some (Except.ok "[1, 2, 3]")) arrJsonParse kbOnlyState).final_synthesis =
      Synthesis.parsedJson arrJson ∧
    Synthesis.isReportRecord
      ((synthesis_node (some (Except.ok "[1, 2, 3]")) arrJsonParse kbOnlyState).final_synthesis) =
      false :=
  ⟨rfl, rfl, rfl⟩

/-- C7 (amended): if the model's response is not parseable as JSON at all
(`json.loads` raises) and exactly one source category is non-empty —
knowledgeHits non-empty while searchResults and scrapedPages are empty — then
the fallback report contains exactly one Finding, whose evidence is
`["Knowledge Base"]`. -/
theorem synthesis_fallback_kb_only (jsonParse : String → Option Json)
    (state : ResearchState) (content : String)
    (h1 : state.search_results = []) (h2 : state.scraped_content = [])
    (h3 : state.knowledge_base_results ≠ []) (h4 : jsonParse content = none) :
    ∃ f : Finding,
      Synthesis.findingsOf
          ((synthesis_node (some (Except.ok content)) jsonParse state).final_synthesis) =
        some [f] ∧
      f.evidence = ["Knowledge Base"] := by
  obtain ⟨a, l, hk⟩ : ∃ a l, state.knowledge_base_results = a :: l := by
    cases hk : state.knowledge_base_results with
    | nil => exact absurd hk h3
    | cons a l => exact ⟨a, l, rfl⟩
  refine ⟨⟨"Knowledge Base Analysis",
    "Relevant information found in the internal knowledge base.",
    ["Knowledge Base"]⟩, ?_, rfl⟩
  unfold synthesis_node
  rw [h1, h2, hk]
  simp only [List.isEmpty_nil, List.isEmpty_cons, Bool.and_false, Bool.false_eq_true,
    if_false]
  rw [h4]
  simp [Synthesis.findingsOf, fallbackFindings]

/-- Witness for C7's amended theorem at a concrete knowledge-base-only
state. -/
theorem synthesis_fallback_kb_only_witness :
    kbOnlyState.search_results = [] ∧ kbOnlyState.scraped_content = [] ∧
    kbOnlyState.knowledge_base_results ≠ [] ∧
    (fun _ : String => (none : Option Json)) "not json" = none ∧
    (∃ f : Finding,
      Synthesis.findingsOf
          ((synthesis_node (some (Except.ok "not json")) (fun _ => none)
            kbOnlyState).final_synthesis) =
        some [f] ∧
      f.evidence = ["Knowledge Base"]) :=
  ⟨rfl, rfl, by decide, rfl,
   synthesis_fallback_kb_only (fun _ => none) kbOnlyState "not json" rfl rfl (by decide) rfl⟩

/-- C1 (counterexample): a run of the full workflow in which the search
client raises.  Although the knowledge base holds two retrievable chunks, the
KnowledgeBaseQuery and Scrape stages skip (the error guard), so their outputs
stay empty, and Synthesize — with no data — stores the error-only value
rather than a non-empty report. -/
theorem degraded_run_counterexample :
    (run_research_workflow raisingSearchFn twoHitKb (fun _ => Except.ok "")
        (some (Except.ok "text")) (fun _ => none) "q").knowledge_base_results = [] ∧
    (run_research_workflow raisingSearchFn twoHitKb (fun _ => Except.ok "")
        (some (Except.ok "text")) (fun _ => none) "q").scraped_content = [] ∧
    (run_research_workflow raisingSearchFn twoHitKb (fun _ => Except.ok "")
        (some (Except.ok "text")) (fun _ => none) "q").final_synthesis =
      Synthesis.errorOnly "No data available for synthesis" ∧
    Synthesis.isReportRecord ((run_research_workflow raisingSearchFn twoHitKb
        (fun _ => Except.ok "") (some (Except.ok "text")) (fun _ => none)
        "q").final_synthesis) = false :=
  ⟨rfl, rfl, rfl, rfl⟩

/-- C1 (amended): for every run in which the web-search client call raises,
the Search stage sets the run's failure field and empties searchResults; the
KnowledgeBaseQuery and Scrape stages then detect the failure and pass the
state through unchanged (so they produce no outputs); the Synthesize stage
still runs and still assigns a `final_synthesis` value, but — all sources
being empty — it is the error-only value, not a non-empty report, and the
failure field is non-null at the end of the run. -/
theorem degraded_run_after_search_exception
    (searchFn : String → Except String (List SearchHit)) (kb : Option Collection)
    (scrapeFn : String → Except String String)
    (llmResult : Option (Except String String)) (jsonParse : String → Option Json)
    (query e : String) (hq : query ≠ "") (hs : searchFn query = .error e) :
    (search_node searchFn (initialState query)).error =
        some ("Web search failed: " ++ e) ∧
      knowledge_base_node kb (search_node searchFn (initialState query)) =
        search_node searchFn (initialState query) ∧
      scrape_node scrapeFn (search_node searchFn (initialState query)) =
        search_node searchFn (initialState query) ∧
      (run_research_workflow searchFn kb scrapeFn llmResult jsonParse query).final_synthesis =
        Synthesis.errorOnly "No data available for synthesis" ∧
      (run_research_workflow searchFn kb scrapeFn llmResult jsonParse query).error =
        some "No data available for synthesis" := by
  have hsearch : search_node searchFn (initialState query) =
      ResearchState.mk query [] [] [] Synthesis.empty
        (some ("Web search failed: " ++ e)) := by
    unfold search_node
    dsimp only [initialState]
    rw [if_neg (by simp), if_neg hq, hs]
  have hkb : knowledge_base_node kb
      (ResearchState.mk query [] [] [] Synthesis.empty
        (some ("Web search failed: " ++ e))) =
      ResearchState.mk query [] [] [] Synthesis.empty
        (some ("Web search failed: " ++ e)) := rfl
  have hscrape : scrape_node scrapeFn
      (ResearchState.mk query [] [] [] Synthesis.empty
        (some ("Web search failed: " ++ e))) =
      ResearchState.mk query [] [] [] Synthesis.empty
        (some ("Web search failed: " ++ e)) := rfl
  have hrun : run_research_workflow searchFn kb scrapeFn llmResult jsonParse query =
      synthesis_node llmResult jsonParse
        (ResearchState.mk query [] [] [] Synthesis.empty
          (some ("Web search failed: " ++ e))) := by
    unfold run_research_workflow
    rw [hsearch, hkb, hscrape]
  refine ⟨by rw [hsearch], by rw [hsearch]; exact hkb, by rw [hsearch]; exact hscrape, ?_, ?_⟩
  · rw [hrun]; rfl
  · rw [hrun]; rfl

/-- Witness for C1's amended theorem at concrete collaborators. -/
theorem degraded_run_after_search_exception_witness :
    ("q" : String) ≠ "" ∧ raisingSearchFn "q" = .error "boom" ∧
    ((search_node raisingSearchFn (initialState "q")).error =
        some ("Web search failed: " ++ "boom") ∧
      knowledge_base_node twoHitKb (search_node raisingSearchFn (initialState "q")) =
        search_node raisingSearchFn (initialState "q") ∧
      scrape_node (fun _ => Except.ok "") (search_node raisingSearchFn (initialState "q")) =
        search_node raisingSearchFn (initialState "q") ∧
      (run_research_workflow raisingSearchFn twoHitKb (fun _ => Except.ok "")
          (some (Except.ok "text")) (fun _ => none) "q").final_synthesis =
        Synthesis.errorOnly "No data available for synthesis" ∧
      (run_research_workflow raisingSearchFn twoHitKb (fun _ => Except.ok "")
          (some (Except.ok "text")) (fun _ => none) "q").error =
        some "No data available for synthesis") :=
  ⟨by decide, rfl,
   degraded_run_after_search_exception raisingSearchFn twoHitKb (fun _ => Except.ok "")
     (some (Except.ok "text")) (fun _ => none) "q" "boom" (by decide) rfl⟩

/-! ## Chunker lemmas -/

/-- `rfind` misses: a character absent from the text is never found. -/
theorem pyRfind_eq_neg_one (l : List Char) (c : Char) (a b : Int) (h : c ∉ l) :
    pyRfind l c a b = -1 := by
  have hfilter : ((List.range l.length).filter
      (fun i => decide (pyNorm l.length a ≤ i) && decide (i < pyNorm l.length b) &&
        (l.getD i ' ' == c))) = [] := by
    apply List.filter_eq_nil_iff.mpr
    intro i hi
    rw [List.mem_range] at hi
    have hmem : l.getD i ' ' ∈ l := by
      rw [List.getD_eq_getElem l ' ' hi]
      exact List.getElem_mem hi
    have hne : l.getD i ' ' ≠ c := fun hEq => h (hEq ▸ hmem)
    simp only [Bool.and_eq_true, decide_eq_true_eq, beq_iff_eq]
    exact fun hc => hne hc.2
  simp only [pyRfind]
  rw [hfilter]
  rfl

/-- Lower bound on the adjusted cut point: even a boundary adjustment moves
the cut at most 198 characters before `start + chunk_size`. -/
theorem adjustedEnd_lower (text : List Char) (chunk_size : Nat) (start : Int) :
    start + (chunk_size : Int) - 198 ≤ adjustedEnd text chunk_size start := by
  unfold adjustedEnd
  dsimp only
  split_ifs with h1 h2 <;> omega

/-- When the text contains no sentence terminator and no newline and
`chunk_size ≥ 199`, no boundary adjustment ever fires from a non-negative
start: the cut point is exactly `start + chunk_size`. -/
theorem adjustedEnd_no_boundary (text : List Char) (chunk_size : Nat) (s : Nat)
    (h1 : '.' ∉ text) (h2 : '\n' ∉ text) (h3 : 199 ≤ chunk_size) :
    adjustedEnd text chunk_size (s : Int) = (s : Int) + (chunk_size : Int) := by
  unfold adjustedEnd
  dsimp only
  rw [pyRfind_eq_neg_one text '.' _ _ h1, pyRfind_eq_neg_one text '\n' _ _ h2]
  split_ifs with hlt hb
  · exfalso
    rw [max_self] at hb
    omega
  · rfl
  · rfl

/-- `take` clamps at the length anyway. -/
theorem take_min_length (l : List Char) (m : Nat) :
    l.take (min m l.length) = l.take m := by
  rw [List.take_eq_take]
  simp

/-- A slice between in-range non-negative indices is an ordinary
drop-then-take. -/
theorem pySlice_nat (l : List Char) (s e : Nat) (hs : s ≤ l.length) :
    pySlice l (s : Int) (e : Int) = (l.drop s).take (e - s) := by
  unfold pySlice pyNorm
  rw [if_neg (by omega), if_neg (by omega)]
  simp only [Int.toNat_natCast]
  rw [take_min_length, Nat.min_eq_left hs, List.drop_take]

/-- Termination of the chunking loop whenever the boundary look-back cannot
reach back to the previous start (`chunk_size ≥ overlap + 199` and
`chunk_size ≥ 200`): fuel `text.length` always suffices, since the start
advances by at least one each iteration.  The production configuration
`chunk_size=1000, overlap=100` satisfies both bounds. -/
theorem splitLoop_isSome (text : List Char) (chunk_size overlap : Nat)
    (ho : overlap + 199 ≤ chunk_size) :
    ∀ (fuel s : Nat) (chunks : List (List Char)) (starts : List Int),
      text.length ≤ s + fuel →
      (splitLoop text chunk_size overlap fuel (s : Int) chunks starts).isSome = true := by
  intro fuel
  induction fuel with
  | zero =>
    intro s chunks starts hs
    unfold splitLoop
    rw [if_neg (by omega)]
    rfl
  | succ fuel ih =>
    intro s chunks starts hs
    unfold splitLoop
    by_cases hlt : (s : Int) < (text.length : Int)
    · rw [if_pos hlt]
      dsimp only
      have hlow := adjustedEnd_lower text chunk_size (s : Int)
      obtain ⟨s', hs'⟩ : ∃ s' : Nat,
          adjustedEnd text chunk_size (s : Int) - (overlap : Int) = (s' : Int) :=
        ⟨(adjustedEnd text chunk_size (s : Int) - (overlap : Int)).toNat,
          (Int.toNat_of_nonneg (by omega)).symm⟩
      rw [hs']
      apply ih
      omega
    · rw [if_neg hlt]
      rfl

/-- On text with no `'.'` and no `'\n'` and `chunk_size ≥ 199`, the loop's
recorded window starts are exactly the arithmetic sequence of `cleanStarts`
(each start advancing by `chunk_size − overlap`). -/
theorem splitLoop_clean_starts (text : List Char) (chunk_size overlap : Nat)
    (h1 : '.' ∉ text) (h2 : '\n' ∉ text) (h3 : 199 ≤ chunk_size)
    (ho : overlap < chunk_size) :
    ∀ (fuel s : Nat) (chunks : List (List Char)) (starts : List Int),
      text.length ≤ s + fuel →
      ∃ ch, splitLoop text chunk_size overlap fuel (s : Int) chunks starts =
        some (ch, starts ++
          (cleanStarts text.length chunk_size overlap s).map (fun k : Nat => (k : Int))) := by
  intro fuel
  induction fuel with
  | zero =>
    intro s chunks starts hs
    refine ⟨chunks, ?_⟩
    unfold splitLoop
    rw [if_neg (by omega)]
    rw [cleanStarts, dif_neg (by omega)]
    simp
  | succ fuel ih =>
    intro s chunks starts hs
    by_cases hlt : s < text.length
    · have hltI : ((s : Nat) : Int) < ((text.length : Nat) : Int) := by omega
      unfold splitLoop
      rw [if_pos hltI]
      dsimp only
      rw [adjustedEnd_no_boundary text chunk_size s h1 h2 h3]
      have hcast : (s : Int) + (chunk_size : Int) - (overlap : Int) =
          ((s + (chunk_size - overlap) : Nat) : Int) := by omega
      rw [hcast]
      obtain ⟨ch, hch⟩ := ih (s + (chunk_size - overlap)) _ (starts.concat (s : Int)) (by omega)
      refine ⟨ch, ?_⟩
      rw [hch]
      have hclean : cleanStarts text.length chunk_size overlap s =
          s :: cleanStarts text.length chunk_size overlap (s + (chunk_size - overlap)) := by
        rw [cleanStarts]
        rw [dif_pos ⟨hlt, ho⟩]
      rw [hclean]
      simp [List.concat_eq_append]
    · have hsn : text.length ≤ s := by omega
      refine ⟨chunks, ?_⟩
      unfold splitLoop
      rw [if_neg (by omega)]
      rw [cleanStarts, dif_neg (by omega)]
      simp

/-- On whitespace-free text with no `'.'` and no `'\n'` and
`chunk_size ≥ 199`, the loop emits exactly the `cleanChunks` windows. -/
theorem splitLoop_clean_chunks (text : List Char) (chunk_size overlap : Nat)
    (h1 : '.' ∉ text) (h2 : '\n' ∉ text)
    (hw : ∀ c ∈ text, pyWhitespace c = false)
    (h3 : 199 ≤ chunk_size) (ho : overlap < chunk_size) :
    ∀ (fuel s : Nat) (chunks : List (List Char)) (starts : List Int),
      text.length ≤ s + fuel →
      ∃ st, splitLoop text chunk_size overlap fuel (s : Int) chunks starts =
        some (chunks ++ cleanChunks text chunk_size overlap s, st) := by
  intro fuel
  induction fuel with
  | zero =>
    intro s chunks starts hs
    refine ⟨starts, ?_⟩
    unfold splitLoop
    rw [if_neg (by omega)]
    rw [cleanChunks, dif_neg (by omega)]
    simp
  | succ fuel ih =>
    intro s chunks starts hs
    by_cases hlt : s < text.length
    · have hltI : ((s : Nat) : Int) < ((text.length : Nat) : Int) := by omega
      unfold splitLoop
      rw [if_pos hltI]
      dsimp only
      rw [adjustedEnd_no_boundary text chunk_size s h1 h2 h3]
      have hcast : (s : Int) + (chunk_size : Int) = ((s + chunk_size : Nat) : Int) := by
        omega
      rw [hcast, pySlice_nat text s (s + chunk_size) (by omega)]
      have hwin : (text.drop s).take (s + chunk_size - s) =
          (text.drop s).take chunk_size := by
        congr 1
        omega
      rw [hwin]
      have hstrip : pyStrip ((text.drop s).take chunk_size) =
          (text.drop s).take chunk_size := by
        apply pyStrip_eq_self
        intro c hc
        exact hw c (List.mem_of_mem_drop (List.mem_of_mem_take hc))
      rw [hstrip]
      have hne : (text.drop s).take chunk_size ≠ [] := by
        simp only [ne_eq, List.take_eq_nil_iff, List.drop_eq_nil_iff]
        push_neg
        omega
      have hempty : ((text.drop s).take chunk_size).isEmpty = false := by
        cases hx : (text.drop s).take chunk_size with
        | nil => exact absurd hx hne
        | cons a t => rfl
      rw [hempty, if_neg Bool.false_ne_true]
      have hcast2 : ((s + chunk_size : Nat) : Int) - (overlap : Int) =
          ((s + (chunk_size - overlap) : Nat) : Int) := by omega
      rw [hcast2]
      obtain ⟨st, hst⟩ := ih (s + (chunk_size - overlap))
        (chunks.concat ((text.drop s).take chunk_size)) (starts.concat (s : Int)) (by omega)
      refine ⟨st, ?_⟩
      rw [hst]
      have hclean : cleanChunks text chunk_size overlap s =
          (text.drop s).take chunk_size ::
            cleanChunks text chunk_size overlap (s + (chunk_size - overlap)) := by
        rw [cleanChunks]
        rw [dif_pos ⟨hlt, ho⟩]
      rw [hclean]
      simp [List.concat_eq_append]
    · refine ⟨starts, ?_⟩
      unfold splitLoop
      rw [if_neg (by omega)]
      rw [cleanChunks, dif_neg (by omega)]
      simp

/-- Successive `cleanStarts` entries differ by exactly
`chunk_size − overlap`. -/
theorem cleanStarts_chain (n chunk_size overlap : Nat) (s : Nat) :
    List.Chain' (fun a b => b = a + (chunk_size - overlap))
      (cleanStarts n chunk_size overlap s) := by
  have H : ∀ k s, n - s ≤ k →
      List.Chain' (fun a b => b = a + (chunk_size - overlap))
        (cleanStarts n chunk_size overlap s) := by
    intro k
    induction k with
    | zero =>
      intro s hk
      rw [cleanStarts, dif_neg (by omega)]
      exact List.chain'_nil
    | succ k ih =>
      intro s hk
      by_cases h : s < n ∧ overlap < chunk_size
      · rw [cleanStarts, dif_pos h]
        rw [List.chain'_cons']
        refine ⟨?_, ih (s + (chunk_size - overlap)) (by omega)⟩
        intro b hb
        rw [cleanStarts] at hb
        by_cases h2 : s + (chunk_size - overlap) < n ∧ overlap < chunk_size
        · rw [dif_pos h2] at hb
          simp at hb
          omega
        · rw [dif_neg h2] at hb
          simp at hb
      · rw [cleanStarts, dif_neg h]
        exact List.chain'_nil
  exact H n s (by omega)

/-- Dropping the `overlap`-prefix of every clean window and concatenating
yields the tail of the text from `s + overlap` on. -/
theorem cleanChunks_flatten (text : List Char) (chunk_size overlap : Nat)
    (ho : overlap < chunk_size) :
    ∀ s, ((cleanChunks text chunk_size overlap s).map (List.drop overlap)).flatten =
      text.drop (s + overlap) := by
  have H : ∀ k s, text.length - s ≤ k →
      ((cleanChunks text chunk_size overlap s).map (List.drop overlap)).flatten =
        text.drop (s + overlap) := by
    intro k
    induction k with
    | zero =>
      intro s hk
      rw [cleanChunks, dif_neg (by omega)]
      simp only [List.map_nil, List.flatten_nil]
      exact (List.drop_eq_nil_iff.mpr (by omega)).symm
    | succ k ih =>
      intro s hk
      by_cases h : s < text.length
      · rw [cleanChunks, dif_pos ⟨h, ho⟩]
        rw [List.map_cons, List.flatten_cons]
        rw [ih (s + (chunk_size - overlap)) (by omega)]
        rw [List.drop_take, List.drop_drop]
        have e2 : text.drop (s + (chunk_size - overlap) + overlap) =
            List.drop (chunk_size - overlap) (List.drop (s + overlap) text) := by
          rw [List.drop_drop]
          congr 1
          omega
        rw [e2]
        exact List.take_append_drop _ _
      · rw [cleanChunks, dif_neg (by omega)]
        simp only [List.map_nil, List.flatten_nil]
        exact (List.drop_eq_nil_iff.mpr (by omega)).symm
  exact fun s => H text.length s (by omega)

/-- C5: `split_text_into_chunks` never validates `overlap ≥ chunk_size`; on
the failing input (400 `'a'`s, `chunk_size = 300 = overlap`) every loop step
returns to `start = 0`, so no amount of fuel completes the loop — the Python
original loops forever instead of rejecting the configuration. -/
theorem chunker_diverges_on_overlap_eq_chunk_size :
    ∀ fuel : Nat, split_text_into_chunks divergeText 300 300 fuel = none := by
  have key : ∀ fuel chunks starts,
      splitLoop divergeText 300 300 fuel 0 chunks starts = none := by
    intro fuel
    induction fuel with
    | zero => intro chunks starts; rfl
    | succ fuel ih =>
      intro chunks starts
      have hstep : splitLoop divergeText 300 300 (fuel + 1) 0 chunks starts =
          splitLoop divergeText 300 300 fuel 0
            (chunks.concat (List.replicate 300 'a')) (starts.concat 0) := by
        conv_lhs => rw [splitLoop]
        rw [if_pos (by decide)]
        dsimp only
        rw [show adjustedEnd divergeText 300 0 = 300 from by decide]
        rw [show pyStrip (pySlice divergeText 0 300) = List.replicate 300 'a' from by decide]
        rw [show (List.replicate 300 'a').isEmpty = false from by decide,
          if_neg Bool.false_ne_true]
        norm_num
      rw [hstep]
      exact ih _ _
  intro fuel
  unfold split_text_into_chunks
  rw [if_neg (by decide)]
  rw [key fuel [] []]
  rfl

/-- C2 (counterexample): chunking 240 `'a'`s, a `'.'`, then 59 `'b'`s with
`chunk_size = 250, overlap = 10`: the boundary adjustment moves the first cut
to 241, and the recorded window starts are `[0, 231]` — the second start is
`241 − 10 = 231`, not `0 + (250 − 10) = 240`. -/
theorem window_starts_counterexample :
    split_window_starts cex2Text 250 10 300 = some [0, 231] ∧
      (231 : Int) ≠ 0 + ((250 : Int) - 10) :=
  ⟨by decide, by decide⟩

/-- C2 (amended): the window start is advanced to the adjusted cut point
minus `overlap`; it advances by exactly `chunk_size − overlap` only when no
sentence-boundary adjustment fires.  In particular, for text with no `'.'`
and no `'\n'` (and `chunk_size ≥ 199`, so the absent-boundary sentinel cannot
pass the look-back test), the successive window starts are exactly
`0, d, 2d, …` with `d = chunk_size − overlap`. -/
theorem window_starts_arithmetic_no_boundary (text : List Char)
    (chunk_size overlap : Nat) (h1 : '.' ∉ text) (h2 : '\n' ∉ text)
    (h3 : 199 ≤ chunk_size) (ho : overlap < chunk_size)
    (hlen : chunk_size < text.length) :
    ∃ starts : List Int,
      split_window_starts text chunk_size overlap text.length = some starts ∧
      starts.head? = some 0 ∧
      List.Chain' (fun a b => b = a + ((chunk_size : Int) - (overlap : Int))) starts := by
  obtain ⟨ch, hch⟩ := splitLoop_clean_starts text chunk_size overlap h1 h2 h3 ho
    text.length 0 [] [] (by omega)
  rw [show (((0 : Nat) : Int)) = (0 : Int) from rfl] at hch
  refine ⟨(cleanStarts text.length chunk_size overlap 0).map (fun k : Nat => (k : Int)),
    ?_, ?_, ?_⟩
  · unfold split_window_starts
    rw [if_neg (by omega)]
    rw [hch]
    simp
  · rw [cleanStarts, dif_pos ⟨by omega, ho⟩]
    simp
  · rw [List.chain'_map]
    apply List.Chain'.imp ?_ (cleanStarts_chain text.length chunk_size overlap 0)
    intro a b hab
    omega

/-- Witness for C2's amended theorem on 200 `'a'`s with
`chunk_size = 199, overlap = 1`. -/
theorem window_starts_arithmetic_no_boundary_witness :
    ('.' ∉ List.replicate 200 'a') ∧ ('\n' ∉ List.replicate 200 'a') ∧
    199 ≤ 199 ∧ 1 < 199 ∧ 199 < (List.replicate 200 'a').length ∧
    (∃ starts : List Int,
      split_window_starts (List.replicate 200 'a') 199 1
          (List.replicate 200 'a').length = some starts ∧
      starts.head? = some 0 ∧
      List.Chain' (fun a b => b = a + ((199 : Int) - (1 : Int))) starts) :=
  ⟨by decide, by decide, by decide, by decide, by decide,
   window_starts_arithmetic_no_boundary (List.replicate 200 'a') 199 1
     (by decide) (by decide) (by decide) (by decide) (by decide)⟩

/-- C6 (counterexample): chunking 290 `'a'`s, 10 spaces, 100 `'b'`s with
`chunk_size = 300, overlap = 10` yields the stripped chunks
`[a×290, b×100]`; removing the 10-character overlap prefix of the second and
concatenating gives 380 characters, not the 400-character trimmed input —
per-chunk stripping loses the boundary whitespace. -/
theorem chunk_reconstruction_counterexample :
    split_text_into_chunks cex6Text 300 10 400 =
      some [List.replicate 290 'a', List.replicate 100 'b'] ∧
    reconstruct 10 [List.replicate 290 'a', List.replicate 100 'b'] ≠ pyStrip cex6Text :=
  ⟨by decide, by decide⟩

/-- C6 (amended): for text containing no `'.'`, no `'\n'` and no whitespace
(so that neither boundary adjustment nor stripping nor empty-chunk skipping
interferes), with `chunk_size ≥ 199`, `overlap < chunk_size` and text longer
than `chunk_size`, concatenating the returned chunks after removing the
`overlap`-character prefix of each chunk beyond the first reconstructs the
input exactly. -/
theorem chunk_reconstruction_clean (text : List Char) (chunk_size overlap : Nat)
    (h1 : '.' ∉ text) (h2 : '\n' ∉ text)
    (hw : ∀ c ∈ text, pyWhitespace c = false)
    (h3 : 199 ≤ chunk_size) (ho : overlap < chunk_size)
    (hlen : chunk_size < text.length) :
    ∃ chunks, split_text_into_chunks text chunk_size overlap text.length = some chunks ∧
      reconstruct overlap chunks = text := by
  obtain ⟨st, hst⟩ := splitLoop_clean_chunks text chunk_size overlap h1 h2 hw h3 ho
    text.length 0 [] [] (by omega)
  rw [show (((0 : Nat) : Int)) = (0 : Int) from rfl] at hst
  refine ⟨cleanChunks text chunk_size overlap 0, ?_, ?_⟩
  · unfold split_text_into_chunks
    rw [if_neg (by omega)]
    rw [hst]
    simp
  · have hcc : cleanChunks text chunk_size overlap 0 =
        (text.drop 0).take chunk_size ::
          cleanChunks text chunk_size overlap (0 + (chunk_size - overlap)) := by
      rw [cleanChunks, dif_pos ⟨by omega, ho⟩]
    rw [hcc]
    simp only [reconstruct]
    rw [cleanChunks_flatten text chunk_size overlap ho]
    simp only [List.drop_zero, Nat.zero_add]
    have e3 : (chunk_size - overlap) + overlap = chunk_size := by omega
    rw [e3]
    exact List.take_append_drop _ _

/-- Witness for C6's amended theorem on 200 `'a'`s with
`chunk_size = 199, overlap = 1`. -/
theorem chunk_reconstruction_clean_witness :
    ('.' ∉ List.replicate 200 'a') ∧ ('\n' ∉ List.replicate 200 'a') ∧
    (∀ c ∈ List.replicate 200 'a', pyWhitespace c = false) ∧
    199 ≤ 199 ∧ 1 < 199 ∧ 199 < (List.replicate 200 'a').length ∧
    (∃ chunks, split_text_into_chunks (List.replicate 200 'a') 199 1
        (List.replicate 200 'a').length = some chunks ∧
      reconstruct 1 chunks = List.replicate 200 'a') :=
  ⟨by decide, by decide, by decide, by decide, by decide, by decide,
   chunk_reconstruction_clean (List.replicate 200 'a') 199 1
     (by decide) (by decide) (by decide) (by decide) (by decide) (by decide)⟩

/-- The id loop produces one id per chunk. -/
theorem addChunksLoop_length (gen : Nat → String) :
    ∀ (l : List (List Char)) (ctr : Nat), (addChunksLoop gen l ctr).length = l.length := by
  intro l
  induction l with
  | nil => intro ctr; rfl
  | cons c rest ih => intro ctr; simp [addChunksLoop, ih]

/-- Every id produced by the loop comes from an even offset of the uuid
stream past the starting counter. -/
theorem addChunksLoop_mem (gen : Nat → String) :
    ∀ (l : List (List Char)) (ctr : Nat) (x : String),
      x ∈ addChunksLoop gen l ctr → ∃ i, x = gen (ctr + 2 * i) := by
  intro l
  induction l with
  | nil => intro ctr x hx; simp [addChunksLoop] at hx
  | cons c rest ih =>
    intro ctr x hx
    simp only [addChunksLoop, List.mem_cons] at hx
    rcases hx with hx | hx
    · exact ⟨0, by simpa using hx⟩
    · obtain ⟨i, hi⟩ := ih (ctr + 2) x hx
      refine ⟨i + 1, ?_⟩
      rw [hi]
      congr 1
      omega

/-- With an injective uuid stream the produced chunk ids are pairwise
distinct. -/
theorem addChunksLoop_nodup (gen : Nat → String) (hgen : Function.Injective gen) :
    ∀ (l : List (List Char)) (ctr : Nat), (addChunksLoop gen l ctr).Nodup := by
  intro l
  induction l with
  | nil => intro ctr; exact List.nodup_nil
  | cons c rest ih =>
    intro ctr
    rw [show addChunksLoop gen (c :: rest) ctr =
      gen ctr :: addChunksLoop gen rest (ctr + 2) from rfl]
    rw [List.nodup_cons]
    refine ⟨?_, ih (ctr + 2)⟩
    intro hmem
    obtain ⟨i, hi⟩ := addChunksLoop_mem gen rest (ctr + 2) (gen ctr) hmem
    have := hgen hi
    omega

/-- `replicateGen` is injective. -/
theorem replicateGen_injective : Function.Injective replicateGen := by
  intro m n h
  have h2 : List.replicate m 'x' = List.replicate n 'x' := congrArg String.data h
  have h3 := congrArg List.length h2
  simpa using h3

/-- C3: for every input text, ingest (`add_document_to_collection`) fails —
returns the distinguished failure value `None` (the spec's `IngestError`) —
exactly when the preprocessed text has fewer than 50 characters after
normalization; otherwise it returns the sequence of freshly generated chunk
ids, one per persisted chunk, pairwise distinct for an injective uuid
stream. -/
theorem add_document_spec (gen : Nat → String) (document_text : List Char)
    (hgen : Function.Injective gen) :
    (add_document_to_collection gen document_text = none ↔
      (pyStrip (preprocess_text document_text)).length < 50) ∧
    ((pyStrip (preprocess_text document_text)).length < 50 ∨
      ∃ chunks ids,
        split_text_into_chunks (preprocess_text document_text) 1000 100
          (preprocess_text document_text).length = some chunks ∧
        add_document_to_collection gen document_text = some ids ∧
        ids.length = chunks.length ∧ ids.Nodup) := by
  by_cases hshort : (pyStrip (preprocess_text document_text)).length < 50
  · refine ⟨⟨fun _ => hshort, fun _ => ?_⟩, Or.inl hshort⟩
    unfold add_document_to_collection
    rw [if_pos hshort]
  · have hsome : (split_text_into_chunks (preprocess_text document_text) 1000 100
        (preprocess_text document_text).length).isSome = true := by
      unfold split_text_into_chunks
      by_cases hle : (preprocess_text document_text).length ≤ 1000
      · rw [if_pos hle]; rfl
      · rw [if_neg hle]
        rw [Option.isSome_map']
        have hterm := splitLoop_isSome (preprocess_text document_text) 1000 100
          (by omega) (preprocess_text document_text).length 0 [] [] (by omega)
        rw [show (((0 : Nat) : Int)) = (0 : Int) from rfl] at hterm
        exact hterm
    obtain ⟨chunks, hchunks⟩ := Option.isSome_iff_exists.mp hsome
    have hadd : add_document_to_collection gen document_text =
        some (addChunksLoop gen chunks 0) := by
      unfold add_document_to_collection
      rw [if_neg hshort, hchunks]
    constructor
    · constructor
      · intro h
        rw [hadd] at h
        exact absurd h (by simp)
      · intro h
        exact absurd h hshort
    · exact Or.inr ⟨chunks, addChunksLoop gen chunks 0, hchunks, hadd,
        addChunksLoop_length gen chunks 0, addChunksLoop_nodup gen hgen chunks 0⟩

/-- Witness for C3: the short document "hi there" (dropped entirely by the
short-line filter) is rejected, and a 60-character document yields distinct
ids. -/
theorem add_document_spec_witness :
    Function.Injective replicateGen ∧
    add_document_to_collection replicateGen "hi there".toList = none ∧
    (∃ ids, add_document_to_collection replicateGen (List.replicate 60 'a') =
      some ids ∧ ids.Nodup) := by
  refine ⟨replicateGen_injective, ?_, ?_⟩
  · exact (add_document_spec replicateGen "hi there".toList
      replicateGen_injective).1.mpr (by decide)
  · have h := (add_document_spec replicateGen (List.replicate 60 'a')
      replicateGen_injective).2
    have h2 := h.resolve_left (by decide)
    obtain ⟨chunks, ids, _, hadd, _, hnodup⟩ := h2
    exact ⟨ids, hadd, hnodup⟩
